import Mathlib

/-
Verification of the wikipedia chatbot `a10.py`.

The program is embedded shallowly:

* Python strings are `String` / `List Char`;
* the regular-expression templates of `a10.py` (all compiled with
  `re.DOTALL | re.IGNORECASE`) are translated into a small executable
  engine over the exact constructs they use: literal characters, character
  classes, the greedy quantifiers `*`, `+`, `?`, `{n}`, the lazy `*?`, one
  optional non-capturing group and one named capture group, with
  backtracking alternatives enumerated in the preference order `re` uses;
* a Python call that can raise is a `PyResult`, an uncaught exception being
  a distinguished constructor of `Exn`;
* the external collaborators (the `wikipedia` module and the BeautifulSoup
  parse) are an explicit environment `Env`;
* the wildcard matcher `match` is imported by `a10.py` from `match.py`,
  a file that is not part of the snapshot; `wmatch` below is modelled from
  the specification of that matcher.
-/

/-- Membership in Python `string.printable`: the ASCII range 0x20..0x7E
(digits, letters, punctuation and the space) together with the whitespace
control characters TAB, LF, VT, FF, CR (0x09..0x0D).  This is the character
set `clean_text` in `a10.py` tests with `char in string.printable`. -/
def pyPrintable (c : Char) : Bool :=
  (32 ≤ c.toNat && c.toNat ≤ 126) || (9 ≤ c.toNat && c.toNat ≤ 13)

/-- Stage 1 of `clean_text` (`a10.py` line 50): every character outside
`string.printable` is replaced by a space (not removed). -/
def only_ascii (l : List Char) : List Char :=
  l.map (fun c => if pyPrintable c then c else ' ')

/-- Collapse every maximal run of the character `c` into a single `c`.
This is `re.sub(" +", " ", s)` for `c = ' '` (`a10.py` line 51) and
`re.sub("\n+", "\n", s)` for `c = '\n'` (line 52). -/
def squeeze (c : Char) : List Char → List Char
  | [] => []
  | a :: t =>
    match t with
    | [] => [a]
    | b :: _ => if a = c ∧ b = c then squeeze c t else a :: squeeze c t

/-- `clean_text` (`a10.py` lines 41-53): replace characters outside
`string.printable` by spaces, then collapse runs of spaces, then collapse
runs of newlines. -/
def clean_text (s : String) : String :=
  String.mk (squeeze '\n' (squeeze ' ' (only_ascii s.data)))

/-- The spec reading of the cleaner: it says `clean` REMOVES any character
outside the fixed printable set (rather than replacing it with a space, as
the code does), then collapses runs of spaces and runs of newlines.  Kept
only to compare against `clean_text`. -/
def clean_text_spec (s : String) : String :=
  String.mk (squeeze '\n' (squeeze ' ' (s.data.filter pyPrintable)))

/-- One item of a regex character class: `\d`, `\w`, `\s` or a single
literal character. -/
inductive CCItem where
  | d
  | w
  | s
  | ch (c : Char)
deriving DecidableEq

/-- Python `\s`: space, TAB, LF, CR, VT, FF. -/
def pySpace (c : Char) : Bool :=
  c = ' ' || c = '\t' || c = '\n' || c = '\r' || c.toNat = 11 || c.toNat = 12

/-- Python `\w` over the ASCII texts produced by `clean_text`: letters,
digits and the underscore. -/
def pyWord (c : Char) : Bool :=
  c.isAlphanum || c = '_'

/-- Does one class item accept the character `c`?  Literal characters are
compared case-folded because every `a10.py` pattern is compiled with
`re.IGNORECASE`. -/
def ccItemMatch (i : CCItem) (c : Char) : Bool :=
  match i with
  | .d => c.isDigit
  | .w => pyWord c
  | .s => pySpace c
  | .ch x => x.toLower == c.toLower

/-- A regex character class.  `neg = true` is a complemented class such as
`\D`; with `neg = true` and no items every character matches, which is `.`
under `re.DOTALL` (any character, newline included). -/
structure CharClass where
  neg : Bool
  items : List CCItem
deriving DecidableEq

def ccMatch (a : CharClass) (c : Char) : Bool :=
  if a.neg then !(a.items.any (fun i => ccItemMatch i c))
  else a.items.any (fun i => ccItemMatch i c)

/-- `.` under `re.DOTALL`. -/
def ccAny : CharClass := ⟨true, []⟩

/-- `\d`. -/
def ccDigit : CharClass := ⟨false, [.d]⟩

/-- `\D`. -/
def ccNonDigit : CharClass := ⟨true, [.d]⟩

/-- A literal pattern character. -/
def ccLit (c : Char) : CharClass := ⟨false, [.ch c]⟩

/-- A bracketed class such as `[\d,]`. -/
def ccOf (items : List CCItem) : CharClass := ⟨false, items⟩

/-- One quantified single-character piece of a regex. -/
inductive Elem where
  | once (a : CharClass)
  | opt (a : CharClass)
  | star (a : CharClass)
  | plus (a : CharClass)
  | lazyStar (a : CharClass)
  | rep (n : Nat) (a : CharClass)

/-- Length of the maximal run of characters satisfying `p` at the front. -/
def maxRun (p : Char → Bool) : List Char → Nat
  | [] => 0
  | a :: t => if p a then maxRun p t + 1 else 0

/-- `[n, n-1, ..., 0]`: the candidate consumption counts of a greedy star,
longest first. -/
def countdown : Nat → List Nat
  | 0 => [0]
  | n + 1 => (n + 1) :: countdown n

/-- `[n, n-1, ..., 1]`: the candidate consumption counts of a greedy plus. -/
def countdownPos : Nat → List Nat
  | 0 => []
  | n + 1 => (n + 1) :: countdownPos n

/-- The numbers of characters an element may consume from `s`, listed in
the order the `re` backtracking engine prefers them. -/
def elemOffsets : Elem → List Char → List Nat
  | .once a, s =>
    match s with
    | [] => []
    | c :: _ => if ccMatch a c then [1] else []
  | .opt a, s =>
    match s with
    | [] => [0]
    | c :: _ => if ccMatch a c then [1, 0] else [0]
  | .star a, s => countdown (maxRun (ccMatch a) s)
  | .plus a, s => countdownPos (maxRun (ccMatch a) s)
  | .lazyStar a, s => List.range (maxRun (ccMatch a) s + 1)
  | .rep n a, s => if n ≤ maxRun (ccMatch a) s then [n] else []

/-- Concatenation of the images of `f`, preserving order. -/
def joinMapL (f : α → List β) : List α → List β
  | [] => []
  | a :: t => f a ++ joinMapL f t

/-- All suffixes of `s` left over after matching the element sequence, in
backtracking preference order (head = the alternative `re` commits to
first; later elements vary faster than earlier ones, as in `re`). -/
def seqElems : List Elem → List Char → List (List Char)
  | [], s => [s]
  | e :: es, s => joinMapL (fun n => seqElems es (s.drop n)) (elemOffsets e s)

/-- A top-level piece of a pattern: a plain element sequence or a greedy
optional non-capturing group `(?: ... )?`. -/
inductive Piece where
  | plain (es : List Elem)
  | optG (es : List Elem)

/-- Remainders after matching one piece, in preference order: a greedy
optional group first tries to match its body, then to be skipped. -/
def pieceRems (p : Piece) (s : List Char) : List (List Char) :=
  match p with
  | .plain es => seqElems es s
  | .optG es => seqElems es s ++ [s]

def seqPieces : List Piece → List Char → List (List Char)
  | [], s => [s]
  | p :: ps, s => joinMapL (fun r => seqPieces ps r) (pieceRems p s)

/-- A compiled pattern of the shape shared by every regex in `a10.py`:
a prefix, exactly one named capture group, and a suffix. -/
structure Pat where
  pre : List Piece
  grp : List Elem
  post : List Piece

/-- The element sequence of a literal string in a pattern. -/
def litE (s : String) : List Elem :=
  s.data.map (fun c => .once (ccLit c))

/-- Match `p` anchored at the start of `s`.  The backtracking alternatives
are enumerated in `re` preference order and the first complete match wins;
the returned value is the text captured by the named group. -/
def matchAt (p : Pat) (s : List Char) : Option String :=
  (joinMapL
    (fun s1 =>
      joinMapL
        (fun s2 =>
          (seqPieces p.post s2).map
            (fun _ => String.mk (s1.take (s1.length - s2.length))))
        (seqElems p.grp s1))
    (seqPieces p.pre s)).head?

/-- Unanchored search, modelling `re.Pattern.search`: the pattern is tried
at every position of the text, leftmost first. -/
def searchFrom (p : Pat) : List Char → Option String
  | [] => matchAt p []
  | c :: t =>
    match matchAt p (c :: t) with
    | some cap => some cap
    | none => searchFrom p t

/-- The Python exceptions that cross function boundaries in `a10.py`. -/
inductive Exn where
  | attributeError (msg : String)
  | lookupError (msg : String)
  | indexError
  | keyboardInterrupt
  | eofError
deriving DecidableEq

/-- The outcome of a Python call: a value, or an uncaught exception
propagating to the caller. -/
inductive PyResult (α : Type) where
  | ok (a : α)
  | exn (e : Exn)
deriving DecidableEq

instance : Monad PyResult where
  pure := PyResult.ok
  bind := fun r f =>
    match r with
    | .ok a => f a
    | .exn e => .exn e

/-- A single-quote character, written through its code point. -/
def sglq : String := String.mk [Char.ofNat 39]

/-- The default `error_text` of `get_match` (`a10.py` line 59). -/
def default_error_text : String :=
  "Page doesn" ++ sglq ++ "t appear to have the property you" ++ sglq ++ "re expecting"

/-- `get_match` (`a10.py` lines 56-76): compile the pattern with
`re.DOTALL | re.IGNORECASE` (both are baked into the engine: `ccAny`
accepts the newline, literal items compare case-folded), search the text
unanchored, raise `AttributeError(error_text)` when there is no match, and
hand the match -- modelled by the text of its single named group -- back to
the caller. -/
def get_match (text : String) (pattern : Pat) (error_text : String) : PyResult String :=
  match searchFrom pattern text.data with
  | none => .exn (.attributeError error_text)
  | some m => .ok m

/-- The external collaborators of `a10.py`: `wikipedia.search`, the page
html of a title (`WikipediaPage(...).html()`), and the BeautifulSoup parse
`soup.find_all(class_="infobox")` as the list of infobox texts of an html
document. -/
structure Env where
  wsearch : String → List String
  htmlOf : String → PyResult String
  infoboxes : String → List String

/-- `get_page_html` (`a10.py` lines 11-21): `wikipedia.search(title)`, then
the html of the first result; `results[0]` raises `IndexError` when the
search result list is empty. -/
def get_page_html (env : Env) (title : String) : PyResult String :=
  match env.wsearch title with
  | [] => .exn .indexError
  | t :: _ => env.htmlOf t

/-- `get_first_infobox_text` (`a10.py` lines 24-38): the text of the first
element of class `infobox`, raising `LookupError("Page has no infobox")`
when the page has none. -/
def get_first_infobox_text (env : Env) (html : String) : PyResult String :=
  match env.infoboxes html with
  | [] => .exn (.lookupError "Page has no infobox")
  | t :: _ => .ok t

/-- The regex of `get_polar_radius` (`a10.py` line 89):
the raw pattern (colon-free prose): prefix `Polar radius` followed by a
lazy dot-star, then an optional group of an optional space, digits and a
space; the named group `radius` captures `[\d,.]+`; the suffix is a lazy
dot-star followed by `km`. -/
def polarPat : Pat :=
  ⟨[.plain (litE "Polar radius" ++ [.lazyStar ccAny]),
    .optG [.opt (ccLit ' '), .plus ccDigit, .once (ccLit ' ')]],
   [.plus (ccOf [.d, .ch ',', .ch '.'])],
   [.plain ([.lazyStar ccAny] ++ litE "km")]⟩

/-- The regex of `get_birth_date` (`a10.py` line 106): prefix `Born`
followed by `\D*`; the named group `birth` is `\d{4}-\d{2}-\d{2}`. -/
def birthPat : Pat :=
  ⟨[.plain (litE "Born" ++ [.star ccNonDigit])],
   [.rep 4 ccDigit, .once (ccLit '-'), .rep 2 ccDigit, .once (ccLit '-'),
    .rep 2 ccDigit],
   []⟩

/-- The regex of `get_population_size` (`a10.py` line 125): prefix
`Population`, `\D*`, `\d{4}`, the class `[)[\d]` starred, `\D*`; the named
group `Population` is `[\d,]+`. -/
def populationPat : Pat :=
  ⟨[.plain (litE "Population" ++
      [.star ccNonDigit, .rep 4 ccDigit,
       .star (ccOf [.ch ')', .ch '[', .d]), .star ccNonDigit])],
   [.plus (ccOf [.d, .ch ','])],
   []⟩

/-- The regex of `get_establish_year` (`a10.py` line 136): prefix
`Established` and `[\n\s]*`; the named group `time` is `[\d\w\s,]+`; the
suffix is `[;(]+`. -/
def establishPat : Pat :=
  ⟨[.plain (litE "Established" ++ [.star (ccOf [.ch '\n', .s])])],
   [.plus (ccOf [.d, .w, .s, .ch ','])],
   [.plain [.plus (ccOf [.ch ';', .ch '('])]]⟩

/-- The regex of `get_ugrad_pop` (`a10.py` line 147): prefix
`Undergraduates` and `[\n\s]*`; the named group `Ugrad` is `[\d,]+`. -/
def ugradPat : Pat :=
  ⟨[.plain (litE "Undergraduates" ++ [.star (ccOf [.ch '\n', .s])])],
   [.plus (ccOf [.d, .ch ','])],
   []⟩

/-- `error_text` of `get_polar_radius` (`a10.py` line 90). -/
def polar_error_text : String := "Page infobox has no polar radius information"

/-- `error_text` of `get_birth_date` (`a10.py` lines 107-109). -/
def birth_error_text : String :=
  "Page infobox has no birth information (at least none in xxxx-xx-xx format)"

/-- `error_text` of `get_population_size` (`a10.py` lines 126-128). -/
def population_error_text : String := "Page infobox has no population information"

/-- `error_text` of `get_establish_year` (`a10.py` lines 137-139). -/
def establish_error_text : String :=
  "Page infobox has no establishment information (at least not in the " ++
    sglq ++ "established" ++ sglq ++ " format)"

/-- `error_text` of `get_ugrad_pop` (`a10.py` lines 148-150). -/
def ugrad_error_text : String :=
  "Page infobox has no information on undergraduate population"

/-- `get_polar_radius` (`a10.py` lines 79-93). -/
def get_polar_radius (env : Env) (planet_name : String) : PyResult String := do
  let html ← get_page_html env planet_name
  let ib ← get_first_infobox_text env html
  let m ← get_match (clean_text ib) polarPat polar_error_text
  .ok ("the polar radius of " ++ planet_name ++ " is " ++ m ++ " km")

/-- `get_birth_date` (`a10.py` lines 96-112). -/
def get_birth_date (env : Env) (name : String) : PyResult String := do
  let html ← get_page_html env name
  let ib ← get_first_infobox_text env html
  let m ← get_match (clean_text ib) birthPat birth_error_text
  .ok (name ++ " was born on this date: " ++ m)

/-- `get_population_size` (`a10.py` lines 114-131); its `print` of the
infobox text is an I/O effect with no bearing on the returned value. -/
def get_population_size (env : Env) (place : String) : PyResult String := do
  let html ← get_page_html env place
  let ib ← get_first_infobox_text env html
  let m ← get_match (clean_text ib) populationPat population_error_text
  .ok (place ++ " has a population of " ++ m)

/-- `get_establish_year` (`a10.py` lines 133-142). -/
def get_establish_year (env : Env) (thing : String) : PyResult String := do
  let html ← get_page_html env thing
  let ib ← get_first_infobox_text env html
  let m ← get_match (clean_text ib) establishPat establish_error_text
  .ok (thing ++ " was established in " ++ m)

/-- `get_ugrad_pop` (`a10.py` lines 144-153). -/
def get_ugrad_pop (env : Env) (school : String) : PyResult String := do
  let html ← get_page_html env school
  let ib ← get_first_infobox_text env html
  let m ← get_match (clean_text ib) ugradPat ugrad_error_text
  .ok (school ++ " has an undergraduate population of " ++ m)

/-- Python `" ".join(matches)`. -/
def joinSpace : List String → String
  | [] => ""
  | x :: t =>
    match t with
    | [] => x
    | _ :: _ => x ++ " " ++ joinSpace t

/-- Python `matches[0]`: raises `IndexError` on an empty list. -/
def item0 (l : List String) : PyResult String :=
  match l with
  | [] => .exn .indexError
  | x :: _ => .ok x

/-- An action of the pattern-action list.  In `a10.py` an action closes
over the ambient wikipedia module; the embedding passes that external
world explicitly as the `Env` argument. -/
abbrev PAction := Env → List String → PyResult (List String)

/-- `birth_date` (`a10.py` lines 160-169): joins the captured tokens with
spaces before querying. -/
def birth_date : PAction := fun env ms => do
  let s ← get_birth_date env (joinSpace ms)
  .ok [s]

/-- `polar_radius` (`a10.py` lines 172-181). -/
def polar_radius : PAction := fun env ms => do
  let m0 ← item0 ms
  let s ← get_polar_radius env m0
  .ok [s]

/-- `population_size` (`a10.py` lines 183-184). -/
def population_size : PAction := fun env ms => do
  let m0 ← item0 ms
  let s ← get_population_size env m0
  .ok [s]

/-- `establish_year` (`a10.py` lines 186-187). -/
def establish_year : PAction := fun env ms => do
  let m0 ← item0 ms
  let s ← get_establish_year env m0
  .ok [s]

/-- `ugrad_pop` (`a10.py` lines 189-190). -/
def ugrad_pop : PAction := fun env ms => do
  let m0 ← item0 ms
  let s ← get_ugrad_pop env m0
  .ok [s]

/-- `bye_action` (`a10.py` lines 193-194): raises `KeyboardInterrupt`. -/
def bye_action : PAction := fun _ _ => .exn .keyboardInterrupt

/-- The pattern-action list (`a10.py` lines 204-212) with each
`"...".split()` written out.  Note that the source pairs the pattern
`"When was % established".split()` -- capital `W` as typed there -- with
`population_size`, not with `establish_year`. -/
def pa_list : List (List String × PAction) :=
  [(["when", "was", "%", "born"], birth_date),
   (["what", "is", "the", "polar", "radius", "of", "%"], polar_radius),
   (["When", "was", "%", "established"], population_size),
   (["what", "is", "the", "population", "of", "%"], population_size),
   (["what", "year", "was", "%", "established"], establish_year),
   (["what", "is", "the", "undergraduate", "population", "of", "%"], ugrad_pop),
   (["bye"], bye_action)]

/-- Python `s.lower()` over its characters. -/
def lowerStr (s : String) : String :=
  String.mk (s.data.map Char.toLower)

/-- Wildcard binding: try every non-empty prefix length of `inp` from `n`
down to `1`, longest first, continuing the match with `f` on the rest. -/
def wildTry (f : List String → Option (List String)) (inp : List String) :
    Nat → Option (List String)
  | 0 => none
  | n + 1 =>
    match f (inp.drop (n + 1)) with
    | some rest => some (inp.take (n + 1) ++ rest)
    | none => wildTry f inp n

/-- Modelled from the spec: the wildcard matcher `match` that `a10.py`
imports from `match.py`, a file absent from the snapshot.  Following spec
4.2: an empty pattern succeeds exactly on empty input with an empty
capture; a literal pattern head must equal the input head case-insensitively
and the tails match recursively; the wildcard marker `%` binds a non-empty
prefix of the input -- prefixes tried longest first, the deterministic
order the spec recommends -- and the tokens it binds are prepended to the
capture of the rest. -/
def wmatch : List String → List String → Option (List String)
  | [], inp => if inp = [] then some [] else none
  | p :: ps, inp =>
    if p = "%" then wildTry (fun rem => wmatch ps rem) inp inp.length
    else
      match inp with
      | [] => none
      | t :: ts => if lowerStr p = lowerStr t then wmatch ps ts else none

/-- The sentinel answer for unmatched input (single quote written through
its code point). -/
def i_dont_understand : String := "I don" ++ sglq ++ "t understand"

/-- The post-processing `search_pa_list` applies to an action call
(`a10.py` lines 230-231): `return answer if answer else ["No answers"]`,
an exception raised by the action propagating unchanged. -/
def answersOr (r : PyResult (List String)) : PyResult (List String) :=
  match r with
  | .ok answer => .ok (if answer = [] then ["No answers"] else answer)
  | .exn e => .exn e

/-- The loop of `search_pa_list` (`a10.py` lines 215-233), generalized over
the rule list it walks: first rule whose pattern matches wins, its action
is called on the capture; when no rule matches the sentinel is returned. -/
def search_rules (env : Env) : List (List String × PAction) → List String → PyResult (List String)
  | [], _ => .ok [i_dont_understand]
  | (pat, act) :: rest, src =>
    match wmatch pat src with
    | some mat => answersOr (act env mat)
    | none => search_rules env rest src

/-- `search_pa_list` (`a10.py` lines 215-233). -/
def search_pa_list (env : Env) (src : List String) : PyResult (List String) :=
  search_rules env pa_list src

def splitWsAux : List Char → List Char → List String
  | [], acc => if acc = [] then [] else [String.mk acc.reverse]
  | c :: rest, acc =>
    if pySpace c then
      if acc = [] then splitWsAux rest []
      else String.mk acc.reverse :: splitWsAux rest []
    else splitWsAux rest (c :: acc)

/-- Python `str.split()` with no argument: split on runs of whitespace,
discarding empty pieces. -/
def pySplit (l : List Char) : List String := splitWsAux l []

/-- The query normalization of `query_loop` (`a10.py` line 243):
`input("Your query? ").replace("?", "").lower().split()`. -/
def tokenize_query (line : String) : List String :=
  pySplit ((line.data.filter (fun c => !(c = '?' : Bool))).map Char.toLower)

/-- What one iteration of `query_loop` does with a line, seen from the
outside. -/
inductive StepResult where
  | answers (l : List String)
  | diagnostic
  | exitSession
  | crash (e : Exn)
deriving DecidableEq

/-- One iteration of `query_loop` (`a10.py` lines 236-253) on a line of
input: the `try` body tokenizes, dispatches and prints the answers;
`except (KeyboardInterrupt, EOFError)` breaks out of the loop;
`except AttributeError` prints the single diagnostic line
`"Page does not match pattern!"` and continues; any other exception -- in
particular the `LookupError` of a missing infobox and the `IndexError` of
an empty search result -- is uncaught and terminates the process. -/
def query_step (env : Env) (line : String) : StepResult :=
  match search_pa_list env (tokenize_query line) with
  | .ok ans => .answers ans
  | .exn (.attributeError _) => .diagnostic
  | .exn .keyboardInterrupt => .exitSession
  | .exn .eofError => .exitSession
  | .exn (.lookupError m) => .crash (.lookupError m)
  | .exn .indexError => .crash .indexError

/-- `cap` occurs inside `inp` as one contiguous block. -/
def contigSub (cap inp : List String) : Prop :=
  ∃ a b, inp = a ++ cap ++ b

/-- Number of wildcard markers in a pattern. -/
def wildcardCount (pat : List String) : Nat :=
  pat.countP (fun p => p == "%")

/-- A world in which every page exists and every infobox reads
`"No birth info here"`: the birth regex finds nothing in it. -/
def envNoBirth : Env :=
  ⟨fun _ => ["page"], fun _ => .ok "html", fun _ => ["No birth info here"]⟩

/-- A world that resolves only the subject `"ada lovelace"` -- every other
search comes back empty -- and whose infobox carries a birth date. -/
def envAda : Env :=
  ⟨fun s => if s = "ada lovelace" then ["Ada Lovelace"] else [],
   fun _ => .ok "html",
   fun _ => ["Born 1815-12-10"]⟩

/-- A world in which no page has an infobox. -/
def envNoInfobox : Env :=
  ⟨fun _ => ["page"], fun _ => .ok "html", fun _ => []⟩

/-- A world whose infobox is a small population fact block. -/
def envQuebec : Env :=
  ⟨fun _ => ["Quebec"], fun _ => .ok "html",
   fun _ => ["Population (2021) Total8,501,833"]⟩

/-- The synthetic fact block of the spec extraction round-trip property. -/
def establishBlock : String := "...Established\n1867; 158 years ago (1867)..."

/-- A world whose infobox is `establishBlock`. -/
def envIllinois : Env :=
  ⟨fun _ => ["UIUC"], fun _ => .ok "html", fun _ => [establishBlock]⟩

/-- A pattern used to exercise the `get_match` contract: literal `ab`, then
a named group of one-or-more digits. -/
def abDigitsPat : Pat :=
  ⟨[.plain (litE "ab")], [.plus ccDigit], []⟩

/-- An action that matches but has no answers, used to exercise the
`["No answers"]` branch of the dispatcher. -/
def emptyPAction : PAction := fun _ _ => .ok []

theorem squeeze_cons2 (c a b : Char) (t : List Char) :
    squeeze c (a :: b :: t) =
      if a = c ∧ b = c then squeeze c (b :: t) else a :: squeeze c (b :: t) := rfl

theorem squeeze_head (c b : Char) (t : List Char) :
    (squeeze c (b :: t)).head? = some b := by
  induction t generalizing b with
  | nil => rfl
  | cons x t ih =>
    rw [squeeze_cons2]
    by_cases h : b = c ∧ x = c
    · rw [if_pos h, ih x, h.1, h.2]
    · rw [if_neg h]; rfl

theorem squeeze_chain (c : Char) (l : List Char) :
    List.Chain' (fun a b => ¬(a = c ∧ b = c)) (squeeze c l) := by
  induction l with
  | nil => simp [squeeze]
  | cons a t ih =>
    cases t with
    | nil => simp [squeeze]
    | cons x t2 =>
      rw [squeeze_cons2]
      by_cases h : a = c ∧ x = c
      · simpa [if_pos h] using ih
      · rw [if_neg h]
        rw [List.chain'_cons']
        refine ⟨?_, by simpa using ih⟩
        intro y hy
        rw [squeeze_head] at hy
        cases hy
        exact h

theorem squeeze_chain_other (c d : Char) (l : List Char)
    (h : List.Chain' (fun a b => ¬(a = d ∧ b = d)) l) :
    List.Chain' (fun a b => ¬(a = d ∧ b = d)) (squeeze c l) := by
  induction l with
  | nil => simpa [squeeze] using h
  | cons a t ih =>
    cases t with
    | nil => simpa [squeeze] using h
    | cons x t2 =>
      rw [squeeze_cons2]
      rw [List.chain'_cons] at h
      by_cases hc : a = c ∧ x = c
      · rw [if_pos hc]
        exact ih h.2
      · rw [if_neg hc]
        rw [List.chain'_cons']
        refine ⟨?_, ih h.2⟩
        intro y hy
        rw [squeeze_head] at hy
        cases hy
        exact h.1

theorem squeeze_subset (c : Char) (l : List Char) (x : Char) (h : x ∈ squeeze c l) :
    x ∈ l := by
  induction l with
  | nil => simpa [squeeze] using h
  | cons a t ih =>
    cases t with
    | nil => simpa [squeeze] using h
    | cons b t2 =>
      rw [squeeze_cons2] at h
      by_cases hc : a = c ∧ b = c
      · rw [if_pos hc] at h
        exact List.mem_cons_of_mem a (ih h)
      · rw [if_neg hc] at h
        rcases List.mem_cons.mp h with h1 | h2
        · exact h1 ▸ List.mem_cons_self a _
        · exact List.mem_cons_of_mem a (ih h2)

theorem search_rules_first_match (env : Env) (pre post : List (List String × PAction))
    (pat : List String) (act : PAction) (src mat : List String)
    (hpre : ∀ r ∈ pre, wmatch r.1 src = none)
    (hm : wmatch pat src = some mat) :
    search_rules env (pre ++ (pat, act) :: post) src = answersOr (act env mat) := by
  induction pre with
  | nil => simp only [List.nil_append, search_rules, hm]
  | cons r rest ih =>
    obtain ⟨rp, ra⟩ := r
    have hr : wmatch rp src = none := hpre (rp, ra) (List.mem_cons_self _ _)
    simp only [List.cons_append, search_rules, hr]
    exact ih (fun q hq => hpre q (List.mem_cons_of_mem _ hq))

theorem search_rules_no_match (env : Env) (rules : List (List String × PAction))
    (src : List String) (h : ∀ r ∈ rules, wmatch r.1 src = none) :
    search_rules env rules src = .ok [i_dont_understand] := by
  induction rules with
  | nil => rfl
  | cons r rest ih =>
    obtain ⟨rp, ra⟩ := r
    have hr : wmatch rp src = none := h (rp, ra) (List.mem_cons_self _ _)
    simp only [search_rules, hr]
    exact ih (fun q hq => h q (List.mem_cons_of_mem _ hq))

theorem wildTry_eq_some (f : List String → Option (List String)) (inp : List String) :
    ∀ (n : Nat) (cap : List String), wildTry f inp n = some cap →
      ∃ k rest, 1 ≤ k ∧ k ≤ n ∧ f (inp.drop k) = some rest ∧
        cap = inp.take k ++ rest := by
  intro n
  induction n with
  | zero => intro cap h; exact absurd h (by simp [wildTry])
  | succ n ih =>
    intro cap h
    simp only [wildTry] at h
    cases hf : f (inp.drop (n + 1)) with
    | some rest =>
      rw [hf] at h
      refine ⟨n + 1, rest, by omega, Nat.le_refl _, hf, ?_⟩
      exact (Option.some.injEq _ _ ▸ h).symm
    | none =>
      rw [hf] at h
      obtain ⟨k, rest, h1, h2, h3, h4⟩ := ih cap h
      exact ⟨k, rest, h1, by omega, h3, h4⟩

theorem wildcardCount_cons (p : String) (ps : List String) :
    wildcardCount (p :: ps) = wildcardCount ps + if p = "%" then 1 else 0 := by
  simp only [wildcardCount, List.countP_cons]
  by_cases h : p = "%"
  · simp [h]
  · simp [h]

theorem wmatch_no_wildcard (pat : List String) :
    wildcardCount pat = 0 → ∀ (inp cap : List String), wmatch pat inp = some cap →
      cap = [] := by
  induction pat with
  | nil =>
    intro _ inp cap h
    simp only [wmatch] at h
    by_cases hi : inp = []
    · rw [if_pos hi] at h
      exact (Option.some.injEq _ _ ▸ h).symm
    · rw [if_neg hi] at h
      exact absurd h (by simp)
  | cons p ps ih =>
    intro h0 inp cap hm
    rw [wildcardCount_cons] at h0
    have hp : ¬(p = "%") := by
      intro hp
      rw [if_pos hp] at h0
      omega
    cases inp with
    | nil =>
      simp only [wmatch, if_neg hp] at hm
      exact absurd hm (by simp)
    | cons t ts =>
      simp only [wmatch, if_neg hp] at hm
      by_cases hl : lowerStr p = lowerStr t
      · rw [if_pos hl] at hm
        exact ih (by omega) ts cap hm
      · rw [if_neg hl] at hm
        exact absurd hm (by simp)

theorem wmatch_contig (pat : List String) :
    wildcardCount pat ≤ 1 → ∀ (inp cap : List String), wmatch pat inp = some cap →
      contigSub cap inp := by
  induction pat with
  | nil =>
    intro _ inp cap h
    simp only [wmatch] at h
    by_cases hi : inp = []
    · rw [if_pos hi] at h
      have : cap = [] := (Option.some.injEq _ _ ▸ h).symm
      exact ⟨[], [], by rw [hi, this]; rfl⟩
    · rw [if_neg hi] at h
      exact absurd h (by simp)
  | cons p ps ih =>
    intro h1 inp cap hm
    rw [wildcardCount_cons] at h1
    by_cases hp : p = "%"
    · simp only [wmatch, if_pos hp] at hm
      obtain ⟨k, rest, hk1, hk2, hf, hcap⟩ := wildTry_eq_some _ inp inp.length cap hm
      have hc0 : wildcardCount ps = 0 := by
        rw [if_pos hp] at h1
        omega
      have hrest : rest = [] := wmatch_no_wildcard ps hc0 _ rest hf
      refine ⟨[], inp.drop k, ?_⟩
      rw [hcap, hrest, List.append_nil, List.nil_append]
      exact (List.take_append_drop k inp).symm
    · cases inp with
      | nil =>
        simp only [wmatch, if_neg hp] at hm
        exact absurd hm (by simp)
      | cons t ts =>
        simp only [wmatch, if_neg hp] at hm
        by_cases hl : lowerStr p = lowerStr t
        · rw [if_pos hl] at hm
          have h2 : wildcardCount ps ≤ 1 := by
            rw [if_neg hp] at h1
            omega
          obtain ⟨a, b, hab⟩ := ih h2 ts cap hm
          exact ⟨t :: a, b, by rw [hab]; rfl⟩
        · rw [if_neg hl] at hm
          exact absurd hm (by simp)

theorem searchFrom_leftmost (p : Pat) :
    ∀ (s : List Char) (cap : String), searchFrom p s = some cap →
      ∃ i, i ≤ s.length ∧ matchAt p (List.drop i s) = some cap ∧
        ∀ j, j < i → matchAt p (List.drop j s) = none := by
  intro s
  induction s with
  | nil =>
    intro cap h
    exact ⟨0, Nat.le_refl 0, by simpa [searchFrom] using h,
      fun j hj => absurd hj (Nat.not_lt_zero j)⟩
  | cons c t ih =>
    intro cap h
    simp only [searchFrom] at h
    cases hma : matchAt p (c :: t) with
    | some cap2 =>
      rw [hma] at h
      have hc : cap2 = cap := Option.some.injEq _ _ ▸ h
      refine ⟨0, Nat.zero_le _, ?_, fun j hj => absurd hj (Nat.not_lt_zero j)⟩
      rw [List.drop_zero, hma, hc]
    | none =>
      rw [hma] at h
      obtain ⟨i, hi, hmi, hlt⟩ := ih cap h
      refine ⟨i + 1, by simpa using Nat.succ_le_succ hi, by simpa using hmi, ?_⟩
      intro j hj
      cases j with
      | zero => simpa using hma
      | succ j2 => simpa using hlt j2 (by omega)

theorem splitWsAux_chars :
    ∀ (l acc : List Char) (t : String), t ∈ splitWsAux l acc →
      ∀ c ∈ t.data, c ∈ l ∨ c ∈ acc := by
  intro l
  induction l with
  | nil =>
    intro acc t ht c hc
    by_cases ha : acc = []
    · rw [ha] at ht
      exact absurd ht (by simp [splitWsAux])
    · simp only [splitWsAux, if_neg ha] at ht
      rw [List.mem_singleton] at ht
      subst ht
      right
      have : (String.mk acc.reverse).data = acc.reverse := rfl
      rw [this] at hc
      exact List.mem_reverse.mp hc
  | cons c0 rest ih =>
    intro acc t ht c hc
    simp only [splitWsAux] at ht
    by_cases hws : pySpace c0
    · rw [if_pos hws] at ht
      by_cases ha : acc = []
      · rw [if_pos ha] at ht
        rcases ih [] t ht c hc with h | h
        · exact Or.inl (List.mem_cons_of_mem _ h)
        · exact absurd h (by simp)
      · rw [if_neg ha] at ht
        rcases List.mem_cons.mp ht with h | h
        · subst h
          right
          have : (String.mk acc.reverse).data = acc.reverse := rfl
          rw [this] at hc
          exact List.mem_reverse.mp hc
        · rcases ih [] t h c hc with h2 | h2
          · exact Or.inl (List.mem_cons_of_mem _ h2)
          · exact absurd h2 (by simp)
    · rw [if_neg hws] at ht
      rcases ih (c0 :: acc) t ht c hc with h | h
      · exact Or.inl (List.mem_cons_of_mem _ h)
      · rcases List.mem_cons.mp h with h2 | h2
        · exact h2 ▸ Or.inl (List.mem_cons_self _ _)
        · exact Or.inr h2

theorem tokenize_query_chars (line : String) (t : String) (ht : t ∈ tokenize_query line)
    (c : Char) (hc : c ∈ t.data) : ∃ d, d ∈ line.data ∧ c = d.toLower := by
  have h := splitWsAux_chars _ [] t ht c hc
  rcases h with h | h
  · obtain ⟨d, hd, hfd⟩ := List.mem_map.mp h
    exact ⟨d, (List.mem_filter.mp hd).1, hfd.symm⟩
  · exact absurd h (by simp)

/-- C1: when the first matching rule's action raises the field-extraction
error (`AttributeError`, the realization of FieldNotFound in `get_match`),
`search_pa_list` propagates exactly that exception; the query loop turns
it into a single diagnostic answer instead of crashing; and no rule
registered after the matching one is attempted -- the outcome is the same
whatever rules follow it. -/
theorem claim_c1_field_error_single_diagnostic (env : Env)
    (pre post : List (List String × PAction)) (pat : List String) (act : PAction)
    (line : String) (mat : List String) (msg : String)
    (hsplit : pa_list = pre ++ (pat, act) :: post)
    (hpre : ∀ r ∈ pre, wmatch r.1 (tokenize_query line) = none)
    (hm : wmatch pat (tokenize_query line) = some mat)
    (hact : act env mat = .exn (.attributeError msg)) :
    search_pa_list env (tokenize_query line) = .exn (.attributeError msg)
    ∧ query_step env line = .diagnostic
    ∧ ∀ post2, search_rules env (pre ++ (pat, act) :: post2) (tokenize_query line) =
        .exn (.attributeError msg) := by
  have key : ∀ post2, search_rules env (pre ++ (pat, act) :: post2) (tokenize_query line) =
      .exn (.attributeError msg) := by
    intro post2
    rw [search_rules_first_match env pre post2 pat act _ mat hpre hm, hact]
    rfl
  have h1 : search_pa_list env (tokenize_query line) = .exn (.attributeError msg) := by
    show search_rules env pa_list (tokenize_query line) = _
    rw [hsplit]
    exact key post
  refine ⟨h1, ?_, key⟩
  unfold query_step
  rw [h1]

/-- Witness for C1: a world whose infobox has no birth data, queried about
a birth date. -/
theorem claim_c1_witness :
    search_pa_list envNoBirth (tokenize_query "when was ada lovelace born?") =
      .exn (.attributeError birth_error_text)
    ∧ query_step envNoBirth "when was ada lovelace born?" = .diagnostic := by
  have h := claim_c1_field_error_single_diagnostic envNoBirth []
      pa_list.tail ["when", "was", "%", "born"] birth_date
      "when was ada lovelace born?" ["ada", "lovelace"] birth_error_text
      rfl (by simp) (by decide) (by decide)
  exact ⟨h.1, h.2.1⟩

/-- C2 counterexample: for the typed line `"When was Ada Lovelace born?"`
the query loop lowercases before matching, so the capture is
`["ada", "lovelace"]` and the subject handed to the Document Provider is
`"ada lovelace"`, not the typed form `"Ada Lovelace"`; the world `envAda`
resolves only the lowercased name, showing that is what the provider
receives. -/
theorem claim_c2_counterexample :
    tokenize_query "When was Ada Lovelace born?" =
      ["when", "was", "ada", "lovelace", "born"]
    ∧ wmatch ["when", "was", "%", "born"]
        (tokenize_query "When was Ada Lovelace born?") = some ["ada", "lovelace"]
    ∧ joinSpace ["ada", "lovelace"] ≠ "Ada Lovelace"
    ∧ query_step envAda "When was Ada Lovelace born?" =
        .answers ["ada lovelace was born on this date: 1815-12-10"] := by decide

/-- C2 amended: the capture of a successful match is a contiguous
sub-sequence of the token list the matcher is given, with those tokens kept
verbatim; but every character of every token produced by the query-loop
normalization is the lowercasing of a character of the typed line, so the
subject reaching the Document Provider is the lowercased form of what the
user typed, not its original casing. -/
theorem claim_c2_amended (pat inp cap : List String) (line : String)
    (hw : wildcardCount pat ≤ 1) (hm : wmatch pat inp = some cap) :
    contigSub cap inp
    ∧ ∀ t ∈ tokenize_query line, ∀ c ∈ t.data, ∃ d, d ∈ line.data ∧ c = d.toLower :=
  ⟨wmatch_contig pat hw inp cap hm,
   fun t ht c hc => tokenize_query_chars line t ht c hc⟩

/-- Witness for C2 amended. -/
theorem claim_c2_witness :
    contigSub ["ada", "lovelace"] ["when", "was", "ada", "lovelace", "born"] :=
  (claim_c2_amended ["when", "was", "%", "born"]
    ["when", "was", "ada", "lovelace", "born"] ["ada", "lovelace"] "x"
    (by decide) (by decide)).1

/-- C3 counterexample: in a world whose page has no infobox, the
document-provider failure (`LookupError`, the realization of NoFactBlock)
is NOT handled like `FieldNotFound`: the query loop crashes instead of
producing a diagnostic answer and continuing. -/
theorem claim_c3_counterexample :
    search_pa_list envNoInfobox (tokenize_query "when was x born") =
      .exn (.lookupError "Page has no infobox")
    ∧ query_step envNoInfobox "when was x born" =
        .crash (.lookupError "Page has no infobox")
    ∧ query_step envNoInfobox "when was x born" ≠ .diagnostic := by decide

/-- C3 amended: only `AttributeError` (FieldNotFound) gets the
diagnostic-and-continue treatment; the `LookupError` of
`get_first_infobox_text` (NoFactBlock) and the `IndexError` of an empty
search result (SubjectNotFound) propagate out of the `try` of
`query_loop`, which catches only `KeyboardInterrupt`, `EOFError` and
`AttributeError`, and so they terminate the session. -/
theorem claim_c3_amended (env : Env) (line msg : String) :
    (search_pa_list env (tokenize_query line) = .exn (.lookupError msg) →
      query_step env line = .crash (.lookupError msg))
    ∧ (search_pa_list env (tokenize_query line) = .exn .indexError →
      query_step env line = .crash .indexError)
    ∧ (search_pa_list env (tokenize_query line) = .exn (.attributeError msg) →
      query_step env line = .diagnostic) := by
  refine ⟨?_, ?_, ?_⟩ <;> intro h <;> unfold query_step <;> rw [h]

/-- Witness for C3 amended. -/
theorem claim_c3_witness :
    query_step envNoInfobox "when was x born" =
      .crash (.lookupError "Page has no infobox") :=
  (claim_c3_amended envNoInfobox "when was x born" "Page has no infobox").1 (by decide)

/-- C4: when no registered pattern matches the tokenized input,
`search_pa_list` returns exactly the one-element sentinel list -- an `ok`
value, so no exception is raised. -/
theorem claim_c4_unmatched_sentinel (env : Env) (src : List String)
    (h : ∀ r ∈ pa_list, wmatch r.1 src = none) :
    search_pa_list env src = .ok [i_dont_understand] :=
  search_rules_no_match env pa_list src h

/-- Witness for C4. -/
theorem claim_c4_witness :
    search_pa_list envNoBirth ["hello", "there"] = .ok [i_dont_understand] :=
  claim_c4_unmatched_sentinel envNoBirth ["hello", "there"] (by decide)

/-- C5: when the first matching rule's action returns an answer list,
the dispatcher returns the sentinel `["No answers"]` if that list is empty
and the list verbatim otherwise; `search_pa_list` is this search over the
registry `pa_list`. -/
theorem claim_c5_first_match_answers (env : Env)
    (pre post : List (List String × PAction)) (pat : List String) (act : PAction)
    (src mat ans : List String)
    (hpre : ∀ r ∈ pre, wmatch r.1 src = none)
    (hm : wmatch pat src = some mat)
    (hact : act env mat = .ok ans) :
    search_rules env (pre ++ (pat, act) :: post) src =
      .ok (if ans = [] then ["No answers"] else ans)
    ∧ search_pa_list env src = search_rules env pa_list src := by
  refine ⟨?_, rfl⟩
  rw [search_rules_first_match env pre post pat act src mat hpre hm, hact]
  rfl

/-- Witness for C5, exercising the empty-answer branch. -/
theorem claim_c5_witness :
    search_rules envNoBirth [(["hi"], emptyPAction)] ["hi"] = .ok ["No answers"] := by
  have h := claim_c5_first_match_answers envNoBirth [] [] ["hi"] emptyPAction
      ["hi"] [] [] (by simp) (by decide) rfl
  simpa using h.1

/-- C6: the `get_match` contract.  The engine is compiled with IGNORECASE
(a literal pattern character accepts exactly the characters with the same
lowercasing) and DOTALL (the dot class accepts every character, newline
included); the search is unanchored and returns the match at the leftmost
admissible position; on failure `get_match` raises an error carrying
exactly the template's error label; on success it returns the named
group's captured substring to the caller. -/
theorem claim_c6_get_match_contract (text : String) (pattern : Pat)
    (error_text : String) :
    (searchFrom pattern text.data = none →
      get_match text pattern error_text = .exn (.attributeError error_text))
    ∧ (∀ cap, searchFrom pattern text.data = some cap →
        get_match text pattern error_text = .ok cap
        ∧ ∃ i, i ≤ text.data.length ∧ matchAt pattern (text.data.drop i) = some cap
            ∧ ∀ j, j < i → matchAt pattern (text.data.drop j) = none)
    ∧ (∀ c : Char, ccMatch ccAny c = true)
    ∧ (∀ x c : Char, ccMatch (ccLit x) c = (x.toLower == c.toLower)) := by
  refine ⟨?_, ?_, ?_, ?_⟩
  · intro h
    unfold get_match
    rw [h]
  · intro cap h
    constructor
    · unfold get_match
      rw [h]
    · exact searchFrom_leftmost pattern text.data cap h
  · intro c
    simp [ccMatch, ccAny]
  · intro x c
    simp [ccMatch, ccLit, ccItemMatch]

/-- Witness for C6: an IGNORECASE hit and a miss carrying the label. -/
theorem claim_c6_witness :
    get_match "zzAB37x" abDigitsPat "no digits" = .ok "37"
    ∧ get_match "zz" abDigitsPat "no digits" = .exn (.attributeError "no digits") :=
  ⟨((claim_c6_get_match_contract "zzAB37x" abDigitsPat "no digits").2.1 "37"
      (by decide)).1,
   (claim_c6_get_match_contract "zz" abDigitsPat "no digits").1 (by decide)⟩

/-- C7 counterexample: `clean_text` does not REMOVE a character outside the
printable set, it replaces it with a space: on `a`, U+00E9, `b` the code
yields `"a b"` while removal followed by collapsing would yield `"ab"`. -/
theorem claim_c7_counterexample :
    clean_text (String.mk ['a', Char.ofNat 233, 'b']) = "a b"
    ∧ clean_text_spec (String.mk ['a', Char.ofNat 233, 'b']) = "ab"
    ∧ ("a b" : String) ≠ "ab" := by decide

/-- C7 amended: `clean_text` REPLACES every character outside the printable
set with a space, then collapses runs of spaces and runs of newlines; it is
total, every character of its output lies in the printable set, and the
output has no two adjacent spaces and no two adjacent newlines. -/
theorem claim_c7_amended (s : String) :
    (∀ c ∈ (clean_text s).data, pyPrintable c = true)
    ∧ List.Chain' (fun a b => ¬(a = ' ' ∧ b = ' ')) (clean_text s).data
    ∧ List.Chain' (fun a b => ¬(a = '\n' ∧ b = '\n')) (clean_text s).data := by
  have hdata : (clean_text s).data = squeeze '\n' (squeeze ' ' (only_ascii s.data)) := rfl
  refine ⟨?_, ?_, ?_⟩
  · intro c hc
    rw [hdata] at hc
    have h1 := squeeze_subset _ _ _ hc
    have h2 := squeeze_subset _ _ _ h1
    obtain ⟨d, _, hd⟩ := List.mem_map.mp h2
    rw [← hd]
    by_cases hp : pyPrintable d
    · rw [if_pos hp]
      exact hp
    · rw [if_neg hp]
      rfl
  · rw [hdata]
    exact squeeze_chain_other '\n' ' ' _ (squeeze_chain ' ' _)
  · rw [hdata]
    exact squeeze_chain '\n' _

/-- Witness for C7 amended at a concrete string. -/
theorem claim_c7_witness :
    pyPrintable 'a' = true
    ∧ List.Chain' (fun a b => ¬(a = ' ' ∧ b = ' ')) (clean_text "a  b").data
    ∧ List.Chain' (fun a b => ¬(a = '\n' ∧ b = '\n')) (clean_text "a  b").data :=
  ⟨(claim_c7_amended "a  b").1 'a' (by decide), (claim_c7_amended "a  b").2.1,
   (claim_c7_amended "a  b").2.2⟩

/-- C8 counterexample: on the spec's synthetic fact block the group
`[\d\w\s,]+` of the establishment template cannot cross the semicolon, so
the named capture is `"1867"`, not `"1867; 158 years ago "` and not its
trimmed form either. -/
theorem claim_c8_counterexample :
    get_match (clean_text establishBlock) establishPat establish_error_text = .ok "1867"
    ∧ ("1867" : String) ≠ "1867; 158 years ago "
    ∧ ("1867" : String) ≠ "1867; 158 years ago" := by decide

/-- C8 amended: on that block the named capture group equals `"1867"`
(the class of the group excludes the semicolon, and the suffix `[;(]+`
consumes it), so `get_establish_year` reports the year 1867. -/
theorem claim_c8_amended :
    get_match (clean_text establishBlock) establishPat establish_error_text = .ok "1867"
    ∧ get_establish_year envIllinois "uiuc" = .ok "uiuc was established in 1867" := by decide

/-- C9: the wildcard matcher on the spec's own examples: the pattern
`when was % born` against `when was ada lovelace born` captures exactly
`["ada", "lovelace"]`, and a wildcard must bind at least one token, so the
single-wildcard pattern fails on empty input. -/
theorem claim_c9_wildcard_capture :
    wmatch ["when", "was", "%", "born"] ["when", "was", "ada", "lovelace", "born"] =
      some ["ada", "lovelace"]
    ∧ wmatch ["%"] [] = none := by decide

/-- C10: the third registry entry pairs the pattern
`"When was % established".split()` with `population_size`; consequently any
input matching it (and neither of the two earlier patterns) is answered by
the population action, not the establishment-year one. -/
theorem claim_c10_established_population (env : Env) (src mat : List String)
    (h2 : wmatch ["When", "was", "%", "established"] src = some mat)
    (h0 : wmatch ["when", "was", "%", "born"] src = none)
    (h1 : wmatch ["what", "is", "the", "polar", "radius", "of", "%"] src = none) :
    pa_list[2]? = some (["When", "was", "%", "established"], population_size)
    ∧ search_pa_list env src = answersOr (population_size env mat) := by
  refine ⟨rfl, ?_⟩
  show search_rules env pa_list src = _
  have hsplit : pa_list =
      [(["when", "was", "%", "born"], birth_date),
       (["what", "is", "the", "polar", "radius", "of", "%"], polar_radius)] ++
      (["When", "was", "%", "established"], population_size) ::
      [(["what", "is", "the", "population", "of", "%"], population_size),
       (["what", "year", "was", "%", "established"], establish_year),
       (["what", "is", "the", "undergraduate", "population", "of", "%"], ugrad_pop),
       (["bye"], bye_action)] := rfl
  rw [hsplit]
  apply search_rules_first_match env _ _ _ _ src mat ?_ h2
  intro r hr
  rcases List.mem_cons.mp hr with h | h
  · subst h
    exact h0
  · rw [List.mem_singleton] at h
    subst h
    exact h1

/-- Witness for C10: a population answer for a when-was-established query. -/
theorem claim_c10_witness :
    search_pa_list envQuebec ["when", "was", "quebec", "established"] =
      .ok ["quebec has a population of 8,501,833"] := by
  have h := claim_c10_established_population envQuebec
      ["when", "was", "quebec", "established"] ["quebec"]
      (by decide) (by decide) (by decide)
  rw [h.2]
  decide
